import Mathlib

/-
  Verification development for the AI-Powered-Contract-Analyzer repository.

  Shallow embedding of:
  * src/folder1/analysis.py  — ContractAnalysisChain.analyze_contract: response
    sanitization, truncation repair, JSON parse, weighted risk aggregation;
  * src/app.py               — token counting and the chat-input token gate;
  * src/chains/rag.py        — ContractRAGChain.invoke;
  * src/utils/vector_store.py — _chunk_documents.

  External capabilities (the LLM completion, the tiktoken encoder, the vector
  retriever, and the recursive text splitter) are modelled as function
  parameters, exactly at the boundaries the source code calls them.
  Python floats are modelled as exact rationals: every weight in the source is
  a multiple of 1/2 and every score a small number, so products, sums and the
  final one-decimal rounding in the source stay within exactly representable
  doubles for schema-conforming inputs.
-/

set_option maxRecDepth 10000

namespace ContractAnalyzer

/-- The closing-brace character, written via its code point. -/
def rbrace : Char := Char.ofNat 125

/-- The opening-brace character, written via its code point. -/
def lbrace : Char := Char.ofNat 123

/-! ## JSON values

Model of the Python objects produced by `json.loads`: `None`, `bool`, numbers
(`int`/`float`, modelled as exact rationals), `str`, `list` and `dict`.
Dictionaries are association lists with unique keys, built by
`dictInsert` which mirrors CPython dict insertion: an existing key keeps its
position and receives the new value, a new key is appended. -/

inductive JsonVal where
  | null : JsonVal
  | bool (b : Bool) : JsonVal
  | num (q : ℚ) : JsonVal
  | str (s : String) : JsonVal
  | arr (items : List JsonVal) : JsonVal
  | obj (entries : List (String × JsonVal)) : JsonVal

/-- Python dict item assignment / duplicate-key resolution: an existing key is
overwritten in place, a fresh key is appended at the end. -/
def dictInsert (d : List (String × JsonVal)) (k : String) (v : JsonVal) :
    List (String × JsonVal) :=
  if d.any (fun p => p.1 = k) then d.map (fun p => if p.1 = k then (k, v) else p)
  else d ++ [(k, v)]

/-- Python `dict.get(k)` (keys are unique by construction, so the first match
is the only match). -/
def dictGet (d : List (String × JsonVal)) (k : String) : Option JsonVal :=
  (d.find? (fun p => p.1 = k)).map Prod.snd

/-- Python `dict.get(k, default)`. -/
def dictGetD (d : List (String × JsonVal)) (k : String) (v₀ : JsonVal) : JsonVal :=
  (dictGet d k).getD v₀

/-! ## JSON scanner (Python `json.loads` semantics) -/

/-- Whitespace skipped by the Python JSON scanner. -/
def isJsonWs (c : Char) : Bool :=
  c = ' ' || c = '\t' || c = '\n' || c = '\r'

/-- Skip JSON whitespace. -/
def skipWs (cs : List Char) : List Char := cs.dropWhile isJsonWs

/-- Value of a decimal digit character. -/
def digitVal (c : Char) : ℕ := c.toNat - 48

/-- Take a maximal run of decimal digits. -/
def takeDigits : List Char → List ℕ × List Char
  | [] => ([], [])
  | c :: rest =>
    if c.isDigit then
      let p := takeDigits rest
      (digitVal c :: p.1, p.2)
    else ([], c :: rest)

/-- Read a digit list (most significant first) as a natural number. -/
def digitsToNat (ds : List ℕ) : ℕ := ds.foldl (fun a d => a * 10 + d) 0

/-- Optional fraction part `.digits`; a bare dot is left unconsumed, exactly as
the Python number regex `(\.\d+)?` would fail to match it. -/
def parseFrac : List Char → ℚ × List Char
  | '.' :: rf =>
    match takeDigits rf with
    | ([], _) => (0, '.' :: rf)
    | (ds, rr) => ((digitsToNat ds : ℚ) / (10 : ℚ) ^ ds.length, rr)
  | cs => (0, cs)

/-- Ten to an integer power, as a rational. -/
def qpow10 (e : ℤ) : ℚ :=
  if 0 ≤ e then (10 : ℚ) ^ e.toNat else 1 / (10 : ℚ) ^ (-e).toNat

/-- Optional exponent part `[eE][-+]?digits`; an exponent marker without
digits is left unconsumed, as in the Python number regex. -/
def parseExp (cs : List Char) : ℤ × List Char :=
  match cs with
  | [] => (0, [])
  | c :: rest =>
    if c = 'e' || c = 'E' then
      let sr : Bool × List Char :=
        match rest with
        | '+' :: rr => (false, rr)
        | '-' :: rr => (true, rr)
        | _ => (false, rest)
      match takeDigits sr.2 with
      | ([], _) => (0, c :: rest)
      | (ds, rr) => ((if sr.1 then -(digitsToNat ds : ℤ) else (digitsToNat ds : ℤ)), rr)
    else (0, c :: rest)

/-- JSON number: `-?(0|[1-9]digits)(.digits)?([eE][-+]?digits)?`.  A leading
zero followed by more digits is rejected; in the Python scanner the match
would stop after the `0` and the following digit then fails as a delimiter,
an error in every context either way. -/
def parseNumber (cs : List Char) : Option (ℚ × List Char) :=
  let nr : Bool × List Char :=
    match cs with
    | '-' :: r => (true, r)
    | _ => (false, cs)
  match takeDigits nr.2 with
  | ([], _) => none
  | (d :: ds, r1) =>
    if d = 0 && ds.length ≠ 0 then none
    else
      let fr := parseFrac r1
      let er := parseExp fr.2
      let mag : ℚ := ((digitsToNat (d :: ds) : ℚ) + fr.1) * qpow10 er.1
      some ((if nr.1 then -mag else mag), er.2)

/-- Hexadecimal digit value. -/
def hexVal (c : Char) : Option ℕ :=
  if c.isDigit then some (c.toNat - 48)
  else if 'a' ≤ c && c ≤ 'f' then some (c.toNat - 87)
  else if 'A' ≤ c && c ≤ 'F' then some (c.toNat - 55)
  else none

/-- Single-character escapes accepted inside JSON strings. -/
def escChar (c : Char) : Option Char :=
  if c = '"' then some '"'
  else if c = '\\' then some '\\'
  else if c = '/' then some '/'
  else if c = 'b' then some (Char.ofNat 8)
  else if c = 'f' then some (Char.ofNat 12)
  else if c = 'n' then some '\n'
  else if c = 'r' then some '\r'
  else if c = 't' then some '\t'
  else none

/-- Body of a JSON string after the opening quote, in strict mode: raw control
characters are rejected, escapes are decoded.  `\uXXXX` takes the scalar value
directly (surrogate-pair recombination is not modelled; no theorem below
exercises `\u`). -/
def parseStringBody : List Char → Option (List Char × List Char)
  | [] => none
  | c :: rest =>
    if c = '"' then some ([], rest)
    else if c = '\\' then
      match rest with
      | 'u' :: h1 :: h2 :: h3 :: h4 :: r2 =>
        match hexVal h1, hexVal h2, hexVal h3, hexVal h4 with
        | some x1, some x2, some x3, some x4 =>
          (parseStringBody r2).map
            (fun p => (Char.ofNat (((x1 * 16 + x2) * 16 + x3) * 16 + x4) :: p.1, p.2))
        | _, _, _, _ => none
      | e :: r2 =>
        match escChar e with
        | some ch => (parseStringBody r2).map (fun p => (ch :: p.1, p.2))
        | none => none
      | [] => none
    else if c.toNat < 32 then none
    else (parseStringBody rest).map (fun p => (c :: p.1, p.2))

mutual

/-- Parse one JSON value (fuel-indexed; the fuel passed by `jsonLoads` always
suffices because every recursive call consumes input).  The Python-only
constants `NaN`/`Infinity` are not modelled; no theorem below uses them. -/
def parseValue : ℕ → List Char → Option (JsonVal × List Char)
  | 0, _ => none
  | _ + 1, [] => none
  | fuel + 1, c :: rest =>
    if c = '"' then
      (parseStringBody rest).map (fun p => (JsonVal.str (String.mk p.1), p.2))
    else if c = lbrace then parseObjBody fuel (skipWs rest) []
    else if c = '[' then parseArrBody fuel (skipWs rest) []
    else if c = 't' then
      match rest with
      | 'r' :: 'u' :: 'e' :: r => some (JsonVal.bool true, r)
      | _ => none
    else if c = 'f' then
      match rest with
      | 'a' :: 'l' :: 's' :: 'e' :: r => some (JsonVal.bool false, r)
      | _ => none
    else if c = 'n' then
      match rest with
      | 'u' :: 'l' :: 'l' :: r => some (JsonVal.null, r)
      | _ => none
    else
      (parseNumber (c :: rest)).map (fun p => (JsonVal.num p.1, p.2))

/-- Items of a JSON array after `[` (leading whitespace already skipped).
`]` closes only an empty accumulator here or follows a parsed item below, so a
trailing comma is an error, as in Python. -/
def parseArrBody : ℕ → List Char → List JsonVal → Option (JsonVal × List Char)
  | 0, _, _ => none
  | fuel + 1, cs, acc =>
    match cs with
    | ']' :: r => if acc.isEmpty then some (JsonVal.arr [], r) else none
    | _ =>
      match parseValue fuel cs with
      | none => none
      | some (v, r) =>
        match skipWs r with
        | ',' :: r3 => parseArrBody fuel (skipWs r3) (acc ++ [v])
        | ']' :: r3 => some (JsonVal.arr (acc ++ [v]), r3)
        | _ => none

/-- Members of a JSON object after the opening brace (leading whitespace
already skipped); duplicate keys resolve through `dictInsert`, last value
winning, as in a Python dict literal build. -/
def parseObjBody : ℕ → List Char → List (String × JsonVal) →
    Option (JsonVal × List Char)
  | 0, _, _ => none
  | fuel + 1, cs, acc =>
    match cs with
    | [] => none
    | c :: r =>
      if c = rbrace then (if acc.isEmpty then some (JsonVal.obj acc, r) else none)
      else if c = '"' then
        match parseStringBody r with
        | none => none
        | some (kcs, r2) =>
          match skipWs r2 with
          | ':' :: r3 =>
            match parseValue fuel (skipWs r3) with
            | none => none
            | some (v, r4) =>
              let acc2 := dictInsert acc (String.mk kcs) v
              match skipWs r4 with
              | ',' :: r5 => parseObjBody fuel (skipWs r5) acc2
              | d :: r5 => if d = rbrace then some (JsonVal.obj acc2, r5) else none
              | [] => none
          | _ => none
      else none

end

/-- `json.loads`: skip surrounding whitespace, parse exactly one value,
require the input to be exhausted.  `none` is a `JSONDecodeError`. -/
def jsonLoads (s : String) : Option JsonVal :=
  match parseValue (2 * s.data.length + 4) (skipWs s.data) with
  | none => none
  | some (v, rest) => if (skipWs rest).isEmpty then some v else none

/-! ## Python string primitives used by analysis.py -/

/-- ASCII whitespace stripped by Python `str.strip()`. -/
def isPyWs (c : Char) : Bool :=
  c = ' ' || c = '\t' || c = '\n' || c = '\r' || c = Char.ofNat 11 || c = Char.ofNat 12

/-- Python `str.strip()`. -/
def pyStrip (cs : List Char) : List Char :=
  ((cs.dropWhile isPyWs).reverse.dropWhile isPyWs).reverse

/-- Python `str.lower()` (ASCII case folding; the clause names the analyzer
compares are ASCII). -/
def pyLower (s : String) : String := String.mk (s.data.map Char.toLower)

/-- Python slice `s[a:b]` for non-negative bounds: clamped, empty when
`b ≤ a`. -/
def pySlice (cs : List Char) (a b : ℕ) : List Char := (cs.take b).drop a

/-- Python `sub in s`: substring containment. -/
def listContains (cs sub : List Char) : Bool :=
  (List.range (cs.length + 1)).any (fun i => sub.isPrefixOf (cs.drop i))

/-- Python `s.find(sub)`: index of the first occurrence (`none` for `-1`). -/
def pyFind (cs sub : List Char) : Option ℕ :=
  (List.range (cs.length + 1)).find? (fun i => sub.isPrefixOf (cs.drop i))

/-- Python `s.rfind(sub, start)`: index of the last occurrence at or after
`start` (`none` for `-1`). -/
def pyRFindFrom (cs sub : List Char) (start : ℕ) : Option ℕ :=
  ((List.range (cs.length + 1)).filter
    (fun i => decide (start ≤ i) && sub.isPrefixOf (cs.drop i))).getLast?

/-! ## analysis.py — ContractAnalysisChain.analyze_contract

Embeds the function from the point where the external completion capability
has returned (`response.content`); everything before that call is prompt
formatting against the fixed template plus the network call itself. -/

/-- Lines 38–46 of analysis.py: strip a markdown code fence (with or without
the `json` language tag).  `find`/`rfind` cannot miss in their branch because
the branch condition is containment of the same marker, so the `getD 0`
defaults are never taken. -/
def stripFences (t : List Char) : List Char :=
  if listContains t ("```json".data) then
    let s := (pyFind t ("```json".data)).getD 0 + 7
    let e := (pyRFindFrom t ("```".data) 0).getD 0
    pyStrip (pySlice t s e)
  else if listContains t ("```".data) then
    let s := (pyFind t ("```".data)).getD 0 + 3
    let e := (pyRFindFrom t ("```".data) 0).getD 0
    pyStrip (pySlice t s e)
  else t

/-- Line 36 + lines 38–46 of analysis.py: `response.content.strip()` followed
by fence stripping; the text handed to the empty check, truncation repair and
JSON parse. -/
def sanitizeResponse (responseContent : String) : List Char :=
  stripFences (pyStrip responseContent.data)

/-- The marker `'    ' + closing brace` used by line 59 of analysis.py to find
the last complete clause object. -/
def TRUNC_MARKER : List Char := "    ".data ++ [rbrace]

/-- The marker `'  ]'` used by line 61 of analysis.py to find the end of the
clauses array. -/
def ARR_CLOSER : List Char := "  ]".data

/-- The synthetic closing fragment appended by line 63 of analysis.py. -/
def FIX_SUFFIX : List Char :=
  ",\n  \"flags\": [],\n  \"overall_risk_score\": null\n".data ++ [rbrace]

/-- Lines 58–63 of analysis.py: best-effort truncation repair.  Finds the last
occurrence of the clause-close marker, then the last occurrence of the
array-close marker at or after it, truncates there and appends the synthetic
closing fragment; leaves the text unchanged when either marker is absent. -/
def fixTruncated (t : List Char) : List Char :=
  match pyRFindFrom t TRUNC_MARKER 0 with
  | none => t
  | some lcc =>
    match pyRFindFrom t ARR_CLOSER lcc with
    | none => t
    | some ce => pySlice t 0 (ce + 3) ++ FIX_SUFFIX

/-- Line 58's guard: repair runs only when the sanitized text does not end
with a closing brace. -/
def repairIfTruncated (t : List Char) : List Char :=
  if t.getLast? = some rbrace then t else fixTruncated t

/-- Lines 50–55 of analysis.py: canned result for an empty model response. -/
def emptyResponseResult : List (String × JsonVal) :=
  [("summary", JsonVal.str "Unable to analyze contract - empty response from model."),
   ("clauses", JsonVal.arr []),
   ("flags", JsonVal.arr [JsonVal.str "Empty response from LLM"]),
   ("overall_risk_score", JsonVal.null)]

/-- Lines 112–117 of analysis.py: canned result for a JSON parse failure. -/
def parseErrorResult : List (String × JsonVal) :=
  [("summary", JsonVal.str "Error: Could not parse LLM response. The model may not have returned valid JSON."),
   ("clauses", JsonVal.arr []),
   ("flags", JsonVal.arr [JsonVal.str "JSON parse error - check if model supports structured output"]),
   ("overall_risk_score", JsonVal.null)]

/-- Lines 69–80 of analysis.py: the clause-weight table, in source order
(Python dicts iterate in insertion order). -/
def CLAUSE_WEIGHTS : List (String × ℚ) :=
  [("liability", 3),
   ("indemnity", 3),
   ("intellectual property", 3),
   ("termination", 5/2),
   ("fees and payment terms", 5/2),
   ("scope of services", 2),
   ("confidentiality", 3/2),
   ("amendments", 1),
   ("force majeure", 1),
   ("default", 3/2)]

/-- Lines 90–96 of analysis.py: start from the `"default"` weight, then take
the first non-default key that is a substring of the (already lowercased)
clause name. -/
def weightFor (lname : String) : ℚ :=
  match CLAUSE_WEIGHTS.find?
      (fun kv => kv.1 ≠ "default" && listContains lname.data kv.1.data) with
  | some kv => kv.2
  | none => (((CLAUSE_WEIGHTS.find? (fun kv => kv.1 = "default")).map Prod.snd).getD 0)

/-- Python `round(x, 1)` on the exact rational value: round half to even at
one decimal place. -/
def roundHalfEven (q : ℚ) : ℤ :=
  let f := ⌊q⌋
  let r := q - f
  if r < 1/2 then f else if 1/2 < r then f + 1 else if f % 2 = 0 then f else f + 1

/-- `round(x, 1)` as used on line 103 of analysis.py. -/
def pyRound1 (q : ℚ) : ℚ := (roundHalfEven (q * 10) : ℚ) / 10

/-- Lines 87–100 of analysis.py, one loop iteration: the pair added to
`(total_weighted_score, total_weight)` by one clause, or the exception the
iteration raises.  A non-dict clause raises (`clause.get` is missing), as
does a non-string `clause_name` (no `.lower()`).  Python `bool` passes the
`isinstance(score, (int, float))` check with `True` counting as `1`. -/
def clauseContrib (c : JsonVal) : Except Unit (ℚ × ℚ) :=
  match c with
  | JsonVal.obj kvs =>
    let score := dictGetD kvs "risk_score" (JsonVal.num 0)
    match dictGetD kvs "clause_name" (JsonVal.str "") with
    | JsonVal.str n =>
      let w := weightFor (pyLower n)
      match score with
      | JsonVal.num q => if 0 < q then Except.ok (q * w, w) else Except.ok (0, 0)
      | JsonVal.bool b => if b then Except.ok (1 * w, w) else Except.ok (0, 0)
      | _ => Except.ok (0, 0)
    | _ => Except.error ()
  | _ => Except.error ()

/-- The accumulation loop of lines 84–100.  The source adds left to right;
addition of rationals makes the grouping immaterial, and a raising clause
aborts the whole analysis either way. -/
def processClauses : List JsonVal → Except Unit (ℚ × ℚ)
  | [] => Except.ok (0, 0)
  | c :: rest =>
    match clauseContrib c, processClauses rest with
    | Except.ok p, Except.ok q => Except.ok (p.1 + q.1, p.2 + q.2)
    | Except.error e, _ => Except.error e
    | Except.ok _, Except.error e => Except.error e

/-- Lines 102–105 of analysis.py: the recomputed overall score —
`round(total_weighted_score / total_weight, 1)` when the accumulated weight is
positive, `None` otherwise. -/
def overallFromTotals (tw : ℚ × ℚ) : Option ℚ :=
  if 0 < tw.2 then some (pyRound1 (tw.1 / tw.2)) else none

/-- The aggregation step of analyze_contract over a clauses list. -/
def overallScore (cs : List JsonVal) : Except Unit (Option ℚ) :=
  match processClauses cs with
  | Except.error e => Except.error e
  | Except.ok tw => Except.ok (overallFromTotals tw)

/-- Python `for clause in clauses` over the value found at `"clauses"`:
a list iterates its items, a string its one-character substrings, a dict its
keys; numbers, booleans and `None` raise `TypeError` (caught by the generic
handler on line 118 and re-raised as `RuntimeError`). -/
def pyIterable (v : JsonVal) : Except Unit (List JsonVal) :=
  match v with
  | JsonVal.arr xs => Except.ok xs
  | JsonVal.str s => Except.ok (s.data.map (fun ch => JsonVal.str (String.mk [ch])))
  | JsonVal.obj kvs => Except.ok (kvs.map (fun p => JsonVal.str p.1))
  | _ => Except.error ()

/-- Lines 36–117 of analysis.py: everything `analyze_contract` does with the
completion's content.  `Except.error ()` is the `RuntimeError` re-raise of
line 119 (any exception other than the two handled failure classes);
`Except.ok` carries the returned dict.  A parsed top-level value that is not a
dict raises when `.get` is called on it. -/
def analyze_contract (responseContent : String) :
    Except Unit (List (String × JsonVal)) :=
  let t := sanitizeResponse responseContent
  if t.isEmpty then Except.ok emptyResponseResult
  else
    match jsonLoads (String.mk (repairIfTruncated t)) with
    | none => Except.ok parseErrorResult
    | some (JsonVal.obj kvs) =>
      match pyIterable (dictGetD kvs "clauses" (JsonVal.arr [])) with
      | Except.error e => Except.error e
      | Except.ok cs =>
        match overallScore cs with
        | Except.error e => Except.error e
        | Except.ok r =>
          Except.ok (dictInsert kvs "overall_risk_score"
            (match r with
             | some q => JsonVal.num q
             | none => JsonVal.null))
    | some _ => Except.error ()

/-! ## app.py — token counting and the chat-input token gate -/

/-- Line 17 of app.py. -/
def MAX_TOKENS : ℕ := 8192

/-- Line 18 of app.py (70% of max). -/
def WARN_THRESHOLD : ℕ := 5734

/-- Line 19 of app.py. -/
def BUFFER_TOKENS : ℕ := 500

/-- A chat message as stored in `st.session_state.messages`. -/
structure ChatMessage where
  role : String
  content : String
deriving DecidableEq

/-- Lines 24–28 of app.py: sum of per-message token counts.  `encode` stands
for `len(encoder.encode(·))` of the external tiktoken encoder. -/
def count_tokens (encode : String → ℕ) (messages : List ChatMessage) : ℕ :=
  messages.foldl (fun total m => total + encode m.content) 0

/-- The three observable zones of the gate on lines 137–141 of app.py. -/
inductive GateOutcome where
  | ok
  | warn
  | blocked
deriving DecidableEq

/-- Lines 137–141 of app.py, as a function of `total_used_tokens`: blocked
strictly above `MAX_TOKENS`, warned strictly above `WARN_THRESHOLD`,
otherwise silent. -/
def gateOutcome (totalUsed : ℕ) : GateOutcome :=
  if MAX_TOKENS < totalUsed then GateOutcome.blocked
  else if WARN_THRESHOLD < totalUsed then GateOutcome.warn
  else GateOutcome.ok

/-- Lines 134–135 of app.py: tokens of the history plus the pending user
message, plus the fixed safety buffer. -/
def totalUsedTokens (encode : String → ℕ) (history : List ChatMessage)
    (prompt : String) : ℕ :=
  count_tokens encode (history ++ [⟨"user", prompt⟩]) + BUFFER_TOKENS

/-- The gate expressed over the counted token sum alone (the "history whose
counted tokens sum to n" form used by the spec's scenarios). -/
def sumGate (n : ℕ) : GateOutcome := gateOutcome (n + BUFFER_TOKENS)

/-- Lines 132–156 of app.py: the submit handler.  Returns the history after
the interaction and the answer sent back, if any.  In the blocked branch the
message is neither sent to the RAG chain nor appended; otherwise the user
message and the chain's answer are appended (a warning changes nothing
structurally). -/
def chatSubmit (encode : String → ℕ) (answer : String → String)
    (history : List ChatMessage) (prompt : String) :
    List ChatMessage × Option String :=
  let total := totalUsedTokens encode history prompt
  if MAX_TOKENS < total then (history, none)
  else
    let resp := answer prompt
    (history ++ [⟨"user", prompt⟩, ⟨"assistant", resp⟩], some resp)

/-! ## chains/rag.py — ContractRAGChain.invoke -/

/-- Python `"\n".join(items)`. -/
def joinNewline : List String → String
  | [] => ""
  | [s] => s
  | s :: s2 :: rest => s ++ "\n" ++ joinNewline (s2 :: rest)

/-- Lines 30–32 of rag.py: the prompt built from the retrieved chunks' page
contents (joined with a newline) and the question. -/
def ragPrompt (contexts : List String) (question : String) : String :=
  "Based on this contract:\n" ++ joinNewline contexts ++
    "\n\nQuestion: " ++ question ++ "\n\nAnswer:"

/-- Lines 26–35 of rag.py: retrieve, build the prompt, invoke the completion
capability, return `response.content` as is.  `retrieve` stands for the
retriever returning the page contents of the top-k documents best-first,
`complete` for the LLM call. -/
def ragInvoke (retrieve : String → List String) (complete : String → String)
    (question : String) : String :=
  complete (ragPrompt (retrieve question) question)

/-! ## utils/vector_store.py — _chunk_documents -/

/-- A metadata value (the source stores strings and ints). -/
inductive MetaVal where
  | str (s : String)
  | nat (n : ℕ)
deriving DecidableEq

/-- Python dict item assignment for metadata dicts (same semantics as
`dictInsert`). -/
def metaInsert (d : List (String × MetaVal)) (k : String) (v : MetaVal) :
    List (String × MetaVal) :=
  if d.any (fun p => p.1 = k) then d.map (fun p => if p.1 = k then (k, v) else p)
  else d ++ [(k, v)]

/-- Python `dict.update` with the pairs of a dict literal, left to right. -/
def metaUpdate (d : List (String × MetaVal)) (kvs : List (String × MetaVal)) :
    List (String × MetaVal) :=
  kvs.foldl (fun acc p => metaInsert acc p.1 p.2) d

/-- Dictionary lookup (keys unique in any dict built by the source). -/
def metaGet (d : List (String × MetaVal)) (k : String) : Option MetaVal :=
  (d.find? (fun p => p.1 = k)).map Prod.snd

/-- A langchain `Document`: page content plus a metadata dict. -/
structure PyDocument where
  page_content : String
  metadata : List (String × MetaVal)
deriving DecidableEq

/-- Lines 38–56 of vector_store.py, one document: split its content, then for
each chunk copy the original metadata and update it with the chunk ordinal,
the total chunk count of this document and the chunk's character length.
`splitText` stands for `RecursiveCharacterTextSplitter.split_text` of the
external langchain splitter (chunk size and overlap live inside it). -/
def chunkOneDocument (splitText : String → List String) (doc : PyDocument) :
    List PyDocument :=
  ((splitText doc.page_content).enum).map (fun ic =>
    { page_content := ic.2,
      metadata := metaUpdate doc.metadata
        [("chunk_index", MetaVal.nat ic.1),
         ("total_chunks", MetaVal.nat (splitText doc.page_content).length),
         ("chunk_size", MetaVal.nat ic.2.length)] })

/-- Lines 18–58 of vector_store.py: all documents, in input order, each
contributing its chunks in split order. -/
def chunk_documents (splitText : String → List String) (docs : List PyDocument) :
    List PyDocument :=
  docs.flatMap (chunkOneDocument splitText)

/-! ## Spec-side definitions

Written from the claims' wording, to be compared with the source-side
definitions above. -/

/-- The claim's weight lookup: case-insensitive substring match of the clause
name against the fixed priority-ordered table, first matching key winning,
1.5 when no key matches.  Written directly from the claim's table. -/
def specWeight (clause_name : String) : ℚ :=
  let n := pyLower clause_name
  if listContains n.data "liability".data then 3
  else if listContains n.data "indemnity".data then 3
  else if listContains n.data "intellectual property".data then 3
  else if listContains n.data "termination".data then 5/2
  else if listContains n.data "fees and payment terms".data then 5/2
  else if listContains n.data "scope of services".data then 2
  else if listContains n.data "confidentiality".data then 3/2
  else if listContains n.data "amendments".data then 1
  else if listContains n.data "force majeure".data then 1
  else 3/2

/-- The numeric `risk_score` of a clause object, when it has one. -/
def clauseScoreQ (c : JsonVal) : Option ℚ :=
  match c with
  | JsonVal.obj kvs =>
    match dictGetD kvs "risk_score" (JsonVal.num 0) with
    | JsonVal.num q => some q
    | _ => none
  | _ => none

/-- The clause's name (empty when absent). -/
def clauseNameOf (c : JsonVal) : String :=
  match c with
  | JsonVal.obj kvs =>
    match dictGetD kvs "clause_name" (JsonVal.str "") with
    | JsonVal.str s => s
    | _ => ""
  | _ => ""

/-- The claim's qualifying condition: a numeric `risk_score > 0`. -/
def specQualifies (c : JsonVal) : Bool :=
  match clauseScoreQ c with
  | some q => decide (0 < q)
  | none => false

/-- The claim's numerator: `score * weight` summed over qualifying clauses. -/
def specNumerator (cs : List JsonVal) : ℚ :=
  ((cs.filter specQualifies).map
    (fun c => (clauseScoreQ c).getD 0 * specWeight (clauseNameOf c))).sum

/-- The claim's denominator: `weight` summed over qualifying clauses. -/
def specDenominator (cs : List JsonVal) : ℚ :=
  ((cs.filter specQualifies).map (fun c => specWeight (clauseNameOf c))).sum

/-- A clause value the loop of analysis.py traverses without raising and
whose score the claim calls numeric: a dict whose `clause_name` (when
present) is a string and whose `risk_score` (when present) is not a Python
`bool` (`True` would pass the source's `isinstance` check as the number 1,
outside the claim's "numeric" wording). -/
def isWFClause (c : JsonVal) : Bool :=
  match c with
  | JsonVal.obj kvs =>
    (match dictGetD kvs "clause_name" (JsonVal.str "") with
     | JsonVal.str _ => true
     | _ => false)
    && (match dictGetD kvs "risk_score" (JsonVal.num 0) with
        | JsonVal.bool _ => false
        | _ => true)
  | _ => false

/-! ## Concrete inputs used by the theorems -/

/-- The spec's weighted example as a model completion, with a placeholder
value 9 in `overall_risk_score` that the aggregation must overwrite. -/
def WEIGHTED_EXAMPLE : String :=
  "\x7b\"summary\": \"s\", \"clauses\": [\x7b\"clause_name\": \"Liability Cap\", \"risk_score\": 8\x7d, \x7b\"clause_name\": \"Force Majeure\", \"risk_score\": 2\x7d], \"flags\": [], \"overall_risk_score\": 9\x7d"

/-- A completion truncated inside the `flags` array: one complete clause
object, the clauses array closed, then the cut. -/
def TRUNCATED_EXAMPLE : String :=
  "\x7b\n  \"summary\": \"s\",\n  \"clauses\": [\n    \x7b\n      \"clause_name\": \"A\",\n      \"risk_score\": 5\n    \x7d\n  ],\n  \"flags\": [\"x"

/-- A valid, unfenced JSON completion that merely contains a fence marker
inside a string value. -/
def BACKTICK_JSON : String := "\x7b\"a\": \"```\"\x7d"

/-- A pending chat message whose token count under a one-token-per-character
encoder is exactly `MAX_TOKENS - BUFFER_TOKENS`. -/
def BOUNDARY_PROMPT : String := String.mk (List.replicate 7692 'a')

/-! ## Helper lemmas -/

theorem boundaryPrompt_length : BOUNDARY_PROMPT.length = 7692 := by
  show (String.mk (List.replicate 7692 'a')).length = 7692
  rw [String.length_mk, List.length_replicate]

theorem totalUsed_boundary :
    totalUsedTokens String.length [] BOUNDARY_PROMPT = 8192 := by
  rw [totalUsedTokens, count_tokens]
  simp only [List.nil_append, List.foldl_cons, List.foldl_nil]
  show 0 + BOUNDARY_PROMPT.length + BUFFER_TOKENS = 8192
  rw [boundaryPrompt_length]
  decide

/-! ## Token gate (claims C2, C3) -/

/-- C2, corrected.  For every conversation history plus pending user message
(and any tokenizer), the gate compares the token count of all messages'
content plus the 500-token buffer against the thresholds: at or below the
warn threshold (5734) it is silent; strictly above the warn threshold and at
or below the max (8192) it warns but permits; strictly above the max (not "at
or above") it blocks, and the blocked message is neither sent to the answerer
nor appended to the history; whenever the total is at or below the max the
message is sent and both it and the answer are appended. -/
theorem C2_token_gate (encode : String → ℕ) (answer : String → String)
    (history : List ChatMessage) (prompt : String) :
    (totalUsedTokens encode history prompt ≤ WARN_THRESHOLD →
      gateOutcome (totalUsedTokens encode history prompt) = GateOutcome.ok)
    ∧ (WARN_THRESHOLD < totalUsedTokens encode history prompt →
        totalUsedTokens encode history prompt ≤ MAX_TOKENS →
        gateOutcome (totalUsedTokens encode history prompt) = GateOutcome.warn)
    ∧ (MAX_TOKENS < totalUsedTokens encode history prompt →
        gateOutcome (totalUsedTokens encode history prompt) = GateOutcome.blocked
        ∧ chatSubmit encode answer history prompt = (history, none))
    ∧ (totalUsedTokens encode history prompt ≤ MAX_TOKENS →
        chatSubmit encode answer history prompt
          = (history ++ [⟨"user", prompt⟩, ⟨"assistant", answer prompt⟩],
             some (answer prompt))) := by
  have hM : MAX_TOKENS = 8192 := rfl
  have hW : WARN_THRESHOLD = 5734 := rfl
  set u := totalUsedTokens encode history prompt with hu
  refine ⟨fun h => ?_, fun h1 h2 => ?_, fun h => ⟨?_, ?_⟩, fun h => ?_⟩
  · rw [gateOutcome, if_neg (by omega), if_neg (by omega)]
  · rw [gateOutcome, if_neg (by omega), if_pos h1]
  · rw [gateOutcome, if_pos h]
  · rw [chatSubmit, ← hu, if_pos h]
  · rw [chatSubmit, ← hu, if_neg (by omega)]

/-- Witness for C2_token_gate at concrete inputs on both sides of the max. -/
theorem C2_token_gate_witness :
    chatSubmit (fun _ => 9000) (fun _ => "r") [] "q" = ([], none)
    ∧ chatSubmit (fun _ => 1000) (fun _ => "r") [] "q"
        = ([⟨"user", "q"⟩, ⟨"assistant", "r"⟩], some "r") :=
  ⟨((C2_token_gate (fun _ => 9000) (fun _ => "r") [] "q").2.2.1 (by decide)).2,
   (C2_token_gate (fun _ => 1000) (fun _ => "r") [] "q").2.2.2 (by decide)⟩

/-- C2, counterexample to the claim as stated: with a one-token-per-character
encoder and a pending message of 7692 characters the total is exactly the max
(8192); the claim says "at or above max → block", but the code warns, sends
the message and appends it. -/
theorem C2_counterexample :
    totalUsedTokens String.length [] BOUNDARY_PROMPT = MAX_TOKENS
    ∧ gateOutcome (totalUsedTokens String.length [] BOUNDARY_PROMPT)
        = GateOutcome.warn
    ∧ GateOutcome.warn ≠ GateOutcome.blocked
    ∧ chatSubmit String.length (fun _ => "r") [] BOUNDARY_PROMPT
        = ([⟨"user", BOUNDARY_PROMPT⟩, ⟨"assistant", "r"⟩], some "r") := by
  refine ⟨totalUsed_boundary, ?_, by decide, ?_⟩
  · rw [totalUsed_boundary]; decide
  · rw [chatSubmit, totalUsed_boundary, if_neg (by decide)]
    simp

/-- C3, corrected.  With max 8192, warn threshold 5734 and buffer 500, the
counted sums 7800 and 7700 both push the total over the max and block (the
claim's "warn-not-block" and "neither" readings fail); every sum of 7693 or
more blocks; warn-without-block happens exactly for sums strictly between
5234 and 7693; sums at or below 5234 pass silently.  The last conjunct ties
`sumGate` to the gate the submit handler applies. -/
theorem C3_token_gate_scenarios :
    sumGate 7800 = GateOutcome.blocked
    ∧ sumGate 7700 = GateOutcome.blocked
    ∧ (∀ n : ℕ, 7693 ≤ n → sumGate n = GateOutcome.blocked)
    ∧ (∀ n : ℕ, 5234 < n → n ≤ 7692 → sumGate n = GateOutcome.warn)
    ∧ (∀ n : ℕ, n ≤ 5234 → sumGate n = GateOutcome.ok)
    ∧ (∀ (encode : String → ℕ) (history : List ChatMessage) (prompt : String),
        gateOutcome (totalUsedTokens encode history prompt)
          = sumGate (count_tokens encode (history ++ [⟨"user", prompt⟩]))) := by
  refine ⟨by decide, by decide, fun n h => ?_, fun n h1 h2 => ?_, fun n h => ?_,
    fun encode history prompt => rfl⟩
  · rw [sumGate, gateOutcome, if_pos (by simp [MAX_TOKENS, BUFFER_TOKENS]; omega)]
  · rw [sumGate, gateOutcome, if_neg (by simp [MAX_TOKENS, BUFFER_TOKENS]; omega),
      if_pos (by simp [WARN_THRESHOLD, BUFFER_TOKENS]; omega)]
  · rw [sumGate, gateOutcome, if_neg (by simp [MAX_TOKENS, BUFFER_TOKENS]; omega),
      if_neg (by simp [WARN_THRESHOLD, BUFFER_TOKENS]; omega)]

/-- Witness for C3_token_gate_scenarios at concrete sums in each zone. -/
theorem C3_token_gate_scenarios_witness :
    sumGate 8000 = GateOutcome.blocked
    ∧ sumGate 6000 = GateOutcome.warn
    ∧ sumGate 100 = GateOutcome.ok :=
  ⟨C3_token_gate_scenarios.2.2.1 8000 (by decide),
   C3_token_gate_scenarios.2.2.2.1 6000 (by decide) (by decide),
   C3_token_gate_scenarios.2.2.2.2.1 100 (by decide)⟩

/-- C3, counterexample to the claim as stated: a counted sum of 7700 is
claimed to trigger "neither warn nor block", and 7800 "warn-not-block"; both
in fact block (totals 8200 and 8300 exceed 8192). -/
theorem C3_counterexample :
    sumGate 7700 = GateOutcome.blocked
    ∧ sumGate 7800 = GateOutcome.blocked
    ∧ GateOutcome.blocked ≠ GateOutcome.ok
    ∧ GateOutcome.blocked ≠ GateOutcome.warn := by decide

/-! ## RAG answerer (claim C7) -/

/-- C7, corrected.  For every question the answerer concatenates the
retrieved chunks' texts in retrieval order with a newline separator, embeds
the concatenation and the question into the fixed prompt template
`Based on this contract: …  Question: …  Answer:`, and returns the
completion's content verbatim and untrimmed (the source performs no
trimming and the template contains no answer-only-from-context
instruction). -/
theorem C7_rag_invoke (retrieve : String → List String)
    (complete : String → String) (question : String) :
    ragInvoke retrieve complete question
      = complete ("Based on this contract:\n" ++ joinNewline (retrieve question)
          ++ "\n\nQuestion: " ++ question ++ "\n\nAnswer:")
    ∧ (∀ c1 c2 : String, ragPrompt [c1, c2] question
        = "Based on this contract:\n" ++ (c1 ++ "\n" ++ c2)
          ++ "\n\nQuestion: " ++ question ++ "\n\nAnswer:") :=
  ⟨rfl, fun _ _ => rfl⟩

/-- C7, counterexample to the claim as stated: a completion with surrounding
whitespace is returned exactly as produced, not trimmed. -/
theorem C7_counterexample :
    ragInvoke (fun _ => ["ctx"]) (fun _ => " padded answer ") "q"
      = " padded answer "
    ∧ String.mk (pyStrip (" padded answer " : String).data) = "padded answer"
    ∧ (" padded answer " : String) ≠ "padded answer" := by
  refine ⟨rfl, by decide, by decide⟩

/-! ## Fence stripping (claim C8) -/

theorem listContains_of_prefix {t a b : List Char} (hab : a <+: b)
    (hb : listContains t b = true) : listContains t a = true := by
  rw [listContains, List.any_eq_true] at hb ⊢
  obtain ⟨i, hi, hpre⟩ := hb
  exact ⟨i, hi, by
    rw [List.isPrefixOf_iff_prefix] at hpre ⊢
    exact hab.trans hpre⟩

/-- C8, corrected.  Sanitization is a no-op exactly for inputs that do not
contain the fence marker ``` anywhere (rather than for every input "not
wrapped in a fenced code block"): for such inputs the text passed on equals
the stripped input unchanged. -/
theorem C8_fence_noop :
    (∀ t : List Char, listContains t ("```".data) = false → stripFences t = t)
    ∧ (∀ completion : String,
        listContains (pyStrip completion.data) ("```".data) = false →
        sanitizeResponse completion = pyStrip completion.data) := by
  have key : ∀ t : List Char, listContains t ("```".data) = false →
      stripFences t = t := by
    intro t h
    have hjson : listContains t ("```json".data) = false := by
      by_contra hc
      rw [Bool.not_eq_false] at hc
      have := listContains_of_prefix (a := "```".data) (b := "```json".data)
        ⟨"json".data, rfl⟩ hc
      rw [this] at h
      exact Bool.true_eq_false.mp h
    rw [stripFences, if_neg (by rw [hjson]; exact Bool.false_ne_true),
      if_neg (by rw [h]; exact Bool.false_ne_true)]
  exact ⟨key, fun completion h => key _ h⟩

/-- Witness for C8_fence_noop on a concrete unfenced input. -/
theorem C8_fence_noop_witness :
    stripFences ("plain text".data) = "plain text".data
    ∧ sanitizeResponse "plain text" = pyStrip ("plain text".data) :=
  ⟨C8_fence_noop.1 ("plain text".data) (by decide),
   C8_fence_noop.2 "plain text" (by decide)⟩

/-- C8, counterexample to the claim as stated: a valid JSON completion that
is not wrapped in a fenced code block (it does not even start with a fence)
but contains the marker inside a string value is destroyed by sanitization —
the slice from after the first marker to before the last marker is empty, so
the whole analysis collapses into the empty-response result. -/
theorem C8_counterexample :
    jsonLoads BACKTICK_JSON = some (JsonVal.obj [("a", JsonVal.str "```")])
    ∧ ("```".data.isPrefixOf BACKTICK_JSON.data) = false
    ∧ sanitizeResponse BACKTICK_JSON = []
    ∧ String.mk (sanitizeResponse BACKTICK_JSON) ≠ BACKTICK_JSON
    ∧ analyze_contract BACKTICK_JSON = Except.ok emptyResponseResult := by
  refine ⟨rfl, by decide, rfl, by decide, rfl⟩

/-! ## Empty-response short-circuit (claim C4) -/

/-- C4, confirmed.  Whenever the sanitized completion text is empty — in
particular for the completion `""` — analyze_contract returns the canned
result (no parse is attempted: the parse branch is never reached), whose
summary is the failure message, whose clauses list is empty, whose flags are
exactly one string mentioning the empty model response, and whose
overall_risk_score is null. -/
theorem C4_empty_response :
    (∀ completion : String, sanitizeResponse completion = [] →
        analyze_contract completion = Except.ok emptyResponseResult)
    ∧ analyze_contract "" = Except.ok emptyResponseResult
    ∧ dictGet emptyResponseResult "summary"
        = some (JsonVal.str "Unable to analyze contract - empty response from model.")
    ∧ dictGet emptyResponseResult "clauses" = some (JsonVal.arr [])
    ∧ dictGet emptyResponseResult "flags"
        = some (JsonVal.arr [JsonVal.str "Empty response from LLM"])
    ∧ listContains ("Empty response from LLM".data) ("Empty response".data) = true
    ∧ dictGet emptyResponseResult "overall_risk_score" = some JsonVal.null := by
  refine ⟨fun completion h => ?_, rfl, rfl, rfl, rfl, by decide, rfl⟩
  simp [analyze_contract, h]

/-- Witness for C4_empty_response at the concrete completion `""`. -/
theorem C4_empty_response_witness :
    analyze_contract "" = Except.ok emptyResponseResult :=
  C4_empty_response.1 "" rfl

/-! ## Parse-failure path (claim C5) -/

/-- C5, confirmed.  Whenever the sanitized (and possibly repaired) completion
fails to parse as JSON — in particular for the completion
`"not json at all"` — analyze_contract does not raise but returns the canned
parse-failure result: failure summary, empty clauses list, exactly one flag
mentioning the parse error, null overall_risk_score. -/
theorem C5_parse_failure :
    (∀ completion : String,
        sanitizeResponse completion ≠ [] →
        jsonLoads (String.mk (repairIfTruncated (sanitizeResponse completion)))
          = none →
        analyze_contract completion = Except.ok parseErrorResult)
    ∧ analyze_contract "not json at all" = Except.ok parseErrorResult
    ∧ dictGet parseErrorResult "summary"
        = some (JsonVal.str "Error: Could not parse LLM response. The model may not have returned valid JSON.")
    ∧ dictGet parseErrorResult "clauses" = some (JsonVal.arr [])
    ∧ dictGet parseErrorResult "flags"
        = some (JsonVal.arr
            [JsonVal.str "JSON parse error - check if model supports structured output"])
    ∧ listContains
        ("JSON parse error - check if model supports structured output".data)
        ("parse error".data) = true
    ∧ dictGet parseErrorResult "overall_risk_score" = some JsonVal.null := by
  refine ⟨fun completion h h2 => ?_, rfl, rfl, rfl, rfl, by decide, rfl⟩
  simp [analyze_contract, h, h2]

/-- Witness for C5_parse_failure at the concrete completion
`"not json at all"`. -/
theorem C5_parse_failure_witness :
    analyze_contract "not json at all" = Except.ok parseErrorResult :=
  C5_parse_failure.1 "not json at all" (by decide) rfl

/-! ## Weighted risk aggregation (claims C1, C9) -/

/-- The source's weight lookup agrees with the claim's priority-ordered
table on every clause name. -/
theorem weightFor_eq_specWeight (s : String) :
    weightFor (pyLower s) = specWeight s := by
  simp only [weightFor, specWeight, CLAUSE_WEIGHTS]
  by_cases h1 : listContains (pyLower s).data "liability".data = true
  · rw [List.find?_cons_of_pos _ (by simp [h1]), if_pos h1]
  rw [List.find?_cons_of_neg _ (by simp [h1]), if_neg h1]
  by_cases h2 : listContains (pyLower s).data "indemnity".data = true
  · rw [List.find?_cons_of_pos _ (by simp [h2]), if_pos h2]
  rw [List.find?_cons_of_neg _ (by simp [h2]), if_neg h2]
  by_cases h3 : listContains (pyLower s).data "intellectual property".data = true
  · rw [List.find?_cons_of_pos _ (by simp [h3]), if_pos h3]
  rw [List.find?_cons_of_neg _ (by simp [h3]), if_neg h3]
  by_cases h4 : listContains (pyLower s).data "termination".data = true
  · rw [List.find?_cons_of_pos _ (by simp [h4]), if_pos h4]
  rw [List.find?_cons_of_neg _ (by simp [h4]), if_neg h4]
  by_cases h5 : listContains (pyLower s).data "fees and payment terms".data = true
  · rw [List.find?_cons_of_pos _ (by simp [h5]), if_pos h5]
  rw [List.find?_cons_of_neg _ (by simp [h5]), if_neg h5]
  by_cases h6 : listContains (pyLower s).data "scope of services".data = true
  · rw [List.find?_cons_of_pos _ (by simp [h6]), if_pos h6]
  rw [List.find?_cons_of_neg _ (by simp [h6]), if_neg h6]
  by_cases h7 : listContains (pyLower s).data "confidentiality".data = true
  · rw [List.find?_cons_of_pos _ (by simp [h7]), if_pos h7]
  rw [List.find?_cons_of_neg _ (by simp [h7]), if_neg h7]
  by_cases h8 : listContains (pyLower s).data "amendments".data = true
  · rw [List.find?_cons_of_pos _ (by simp [h8]), if_pos h8]
  rw [List.find?_cons_of_neg _ (by simp [h8]), if_neg h8]
  by_cases h9 : listContains (pyLower s).data "force majeure".data = true
  · rw [List.find?_cons_of_pos _ (by simp [h9]), if_pos h9]
  rw [List.find?_cons_of_neg _ (by simp [h9]), if_neg h9]
  rw [List.find?_cons_of_neg _ (by simp), List.find?_nil]
  rfl

/-- One loop iteration of the aggregation on a well-formed clause: the
qualifying clauses (numeric score `> 0`) contribute `score * weight` and
`weight`, the rest contribute nothing. -/
theorem clauseContrib_wf {c : JsonVal} (h : isWFClause c = true) :
    clauseContrib c
      = Except.ok
          (if specQualifies c
           then ((clauseScoreQ c).getD 0 * specWeight (clauseNameOf c),
                 specWeight (clauseNameOf c))
           else (0, 0)) := by
  cases c with
  | obj kvs =>
    simp only [isWFClause, Bool.and_eq_true] at h
    simp only [clauseContrib, specQualifies, clauseScoreQ, clauseNameOf]
    cases hname : dictGetD kvs "clause_name" (JsonVal.str "") with
    | str n =>
      cases hscore : dictGetD kvs "risk_score" (JsonVal.num 0) with
      | num q =>
        dsimp only
        rw [weightFor_eq_specWeight]
        by_cases hq : 0 < q
        · rw [if_pos hq, if_pos (by simp [hq]), Option.getD_some]
        · rw [if_neg hq, if_neg (by simp [hq])]
      | bool b => rw [hscore] at h; simp at h
      | null => rfl
      | str s2 => rfl
      | arr xs => rfl
      | obj es => rfl
    | null => rw [hname] at h; simp at h
    | bool b => rw [hname] at h; simp at h
    | num q => rw [hname] at h; simp at h
    | arr xs => rw [hname] at h; simp at h
    | obj es => rw [hname] at h; simp at h
  | null => simp [isWFClause] at h
  | bool b => simp [isWFClause] at h
  | num q => simp [isWFClause] at h
  | str s2 => simp [isWFClause] at h
  | arr xs => simp [isWFClause] at h

/-- The accumulation loop computes exactly the claim's numerator and
denominator on well-formed clause lists. -/
theorem processClauses_wf {cs : List JsonVal}
    (h : ∀ c ∈ cs, isWFClause c = true) :
    processClauses cs = Except.ok (specNumerator cs, specDenominator cs) := by
  induction cs with
  | nil => simp [processClauses, specNumerator, specDenominator]
  | cons c rest ih =>
    have hc : isWFClause c = true := h c (List.mem_cons_self c rest)
    have hrest : ∀ x ∈ rest, isWFClause x = true :=
      fun x hx => h x (List.mem_cons_of_mem c hx)
    rw [processClauses, clauseContrib_wf hc, ih hrest]
    by_cases hq : specQualifies c
    · simp only [if_pos hq, specNumerator, specDenominator,
        List.filter_cons_of_pos hq, List.map_cons, List.sum_cons]
    · have hq2 : specQualifies c = false := by rwa [Bool.not_eq_true] at hq
      simp [if_neg hq, specNumerator, specDenominator, List.filter_cons, hq2]

/-- C1, confirmed.  (i) The source's weight lookup equals the claim's
priority-ordered table on every clause name; (ii) for every clause list the
loop traverses without raising (and whose scores are numbers in the claim's
sense, not Python bools), the aggregation yields
`round(numerator/denominator, 1)` when the accumulated weight is positive and
null otherwise; (iii) the spec's two-clause example evaluated through the
whole pipeline yields 6.5, overwriting the model's placeholder value 9;
(iv)–(v) a clause named "Miscellaneous Terms" gets the default weight 1.5
under both the claim's table and the source's lookup. -/
theorem C1_weighted_aggregation :
    (∀ name : String, weightFor (pyLower name) = specWeight name)
    ∧ (∀ cs : List JsonVal, (∀ c ∈ cs, isWFClause c = true) →
        overallScore cs
          = Except.ok
              (if 0 < specDenominator cs
               then some (pyRound1 (specNumerator cs / specDenominator cs))
               else none))
    ∧ analyze_contract WEIGHTED_EXAMPLE
        = Except.ok
            [("summary", JsonVal.str "s"),
             ("clauses", JsonVal.arr
                [JsonVal.obj [("clause_name", JsonVal.str "Liability Cap"),
                              ("risk_score", JsonVal.num 8)],
                 JsonVal.obj [("clause_name", JsonVal.str "Force Majeure"),
                              ("risk_score", JsonVal.num 2)]]),
             ("flags", JsonVal.arr []),
             ("overall_risk_score", JsonVal.num (13/2))]
    ∧ specWeight "Miscellaneous Terms" = 3/2
    ∧ weightFor (pyLower "Miscellaneous Terms") = 3/2 := by
  refine ⟨weightFor_eq_specWeight, ?_, ?_, by rfl, by rfl⟩
  · intro cs h
    simp only [overallScore, processClauses_wf h, overallFromTotals]
  · with_unfolding_all rfl

/-- Witness for C1_weighted_aggregation on the spec's two example clauses:
`(8 * 3.0 + 2 * 1.0) / (3.0 + 1.0)` rounded to one decimal is 6.5. -/
theorem C1_weighted_aggregation_witness :
    overallScore
      [JsonVal.obj [("clause_name", JsonVal.str "Liability Cap"),
                    ("risk_score", JsonVal.num 8)],
       JsonVal.obj [("clause_name", JsonVal.str "Force Majeure"),
                    ("risk_score", JsonVal.num 2)]]
      = Except.ok (some (13/2)) := by
  rw [C1_weighted_aggregation.2.1 _ (by decide)]
  with_unfolding_all rfl

/-- Every permutation of the clause list leaves the loop's accumulated
totals (and its raise-or-complete outcome) unchanged. -/
theorem processClauses_perm {cs cs' : List JsonVal} (h : cs.Perm cs') :
    processClauses cs = processClauses cs' := by
  induction h with
  | nil => rfl
  | cons x _ ih => simp only [processClauses, ih]
  | swap x y l =>
    simp only [processClauses]
    rcases clauseContrib x with e | p <;> rcases clauseContrib y with e2 | q <;>
      rcases processClauses l with e3 | r <;> simp
    all_goals constructor <;> ring
  | trans _ _ ih1 ih2 => exact ih1.trans ih2

/-- C9, confirmed.  The aggregation step of analyze_contract is a pure
function of the clauses (reproducible across runs) and invariant under any
permutation of the clauses array: reorderings yield the same
overall_risk_score. -/
theorem C9_order_invariance :
    ∀ cs cs' : List JsonVal, cs.Perm cs' → overallScore cs = overallScore cs' := by
  intro cs cs' h
  simp only [overallScore, processClauses_perm h]

/-- Witness for C9_order_invariance on the two example clauses swapped. -/
theorem C9_order_invariance_witness :
    overallScore
      [JsonVal.obj [("clause_name", JsonVal.str "Liability Cap"),
                    ("risk_score", JsonVal.num 8)],
       JsonVal.obj [("clause_name", JsonVal.str "Force Majeure"),
                    ("risk_score", JsonVal.num 2)]]
      = overallScore
      [JsonVal.obj [("clause_name", JsonVal.str "Force Majeure"),
                    ("risk_score", JsonVal.num 2)],
       JsonVal.obj [("clause_name", JsonVal.str "Liability Cap"),
                    ("risk_score", JsonVal.num 8)]] :=
  C9_order_invariance _ _ (List.Perm.swap _ _ _)

/-! ## Truncation repair (claim C6) -/

/-- C6, confirmed as the claim hedges itself.  (i)–(iii) On any non-empty
sanitized text, the repair leaves the text unchanged when the last-complete-
clause marker `'    ' + brace` is absent, or when no array-close marker
`'  ]'` occurs at or after it; when both positions are found it truncates
right after the array-close marker and appends the synthetic closing fragment
(the source writes it with newlines and spaces, JSON-equivalent to the
claim's compact `,"flags":[],"overall_risk_score":null` + brace, as conjunct
(v) shows by parsing).  (iv) If the repaired text still fails to parse, the
input falls through to the parse-failure path.  (v)–(vi) On a representative
completion truncated inside the flags array, the repaired text is
syntactically valid JSON containing exactly the one completely received
clause, an empty flags array and a null overall_risk_score, and the full
pipeline then aggregates that clause (default weight 1.5, score 5 → 5.0). -/
theorem C6_truncation_repair :
    (∀ t : List Char, pyRFindFrom t TRUNC_MARKER 0 = none → fixTruncated t = t)
    ∧ (∀ t : List Char, ∀ lcc : ℕ, pyRFindFrom t TRUNC_MARKER 0 = some lcc →
        pyRFindFrom t ARR_CLOSER lcc = none → fixTruncated t = t)
    ∧ (∀ t : List Char, ∀ lcc ce : ℕ, pyRFindFrom t TRUNC_MARKER 0 = some lcc →
        pyRFindFrom t ARR_CLOSER lcc = some ce →
        fixTruncated t = pySlice t 0 (ce + 3) ++ FIX_SUFFIX)
    ∧ (∀ completion : String,
        sanitizeResponse completion ≠ [] →
        jsonLoads (String.mk (repairIfTruncated (sanitizeResponse completion)))
          = none →
        analyze_contract completion = Except.ok parseErrorResult)
    ∧ (sanitizeResponse TRUNCATED_EXAMPLE).getLast? ≠ some rbrace
    ∧ jsonLoads (String.mk (repairIfTruncated (sanitizeResponse TRUNCATED_EXAMPLE)))
        = some (JsonVal.obj
            [("summary", JsonVal.str "s"),
             ("clauses", JsonVal.arr
                [JsonVal.obj [("clause_name", JsonVal.str "A"),
                              ("risk_score", JsonVal.num 5)]]),
             ("flags", JsonVal.arr []),
             ("overall_risk_score", JsonVal.null)])
    ∧ analyze_contract TRUNCATED_EXAMPLE
        = Except.ok
            [("summary", JsonVal.str "s"),
             ("clauses", JsonVal.arr
                [JsonVal.obj [("clause_name", JsonVal.str "A"),
                              ("risk_score", JsonVal.num 5)]]),
             ("flags", JsonVal.arr []),
             ("overall_risk_score", JsonVal.num 5)] := by
  refine ⟨fun t h => ?_, fun t lcc h h2 => ?_, fun t lcc ce h h2 => ?_,
    fun completion h h2 => ?_, by decide, by with_unfolding_all rfl,
    by with_unfolding_all rfl⟩
  · simp only [fixTruncated, h]
  · simp only [fixTruncated, h, h2]
  · simp only [fixTruncated, h, h2]
  · simp [analyze_contract, h, h2]

/-- Witness for C6_truncation_repair: concrete inputs for each hedge — no
clause-close marker at all, a clause-close marker with no array close at or
after it, both markers present, and a repaired text that still fails to
parse. -/
theorem C6_truncation_repair_witness :
    fixTruncated ("no markers".data) = "no markers".data
    ∧ fixTruncated ("    ".data ++ [rbrace]) = "    ".data ++ [rbrace]
    ∧ fixTruncated ("    ".data ++ [rbrace] ++ "  ]x".data)
        = pySlice ("    ".data ++ [rbrace] ++ "  ]x".data) 0 8 ++ FIX_SUFFIX
    ∧ analyze_contract "x    " = Except.ok parseErrorResult := by
  refine ⟨C6_truncation_repair.1 _ (by decide), ?_, ?_, ?_⟩
  · exact C6_truncation_repair.2.1 _ 0 (by decide) (by decide)
  · exact C6_truncation_repair.2.2.1 _ 0 5 (by decide) (by decide)
  · exact C6_truncation_repair.2.2.2.1 "x    " (by decide) rfl

/-! ## Document chunking (claim C10) -/

theorem find?_map_replace_self (d : List (String × MetaVal)) (k : String)
    (v : MetaVal) (h : d.any (fun p => p.1 = k) = true) :
    List.find? (fun p => p.1 = k)
        (d.map (fun p => if p.1 = k then (k, v) else p)) = some (k, v) := by
  induction d with
  | nil => simp at h
  | cons p rest ih =>
    by_cases hp : p.1 = k
    · simp [hp]
    · simp only [List.any_cons, Bool.or_eq_true, decide_eq_true_eq] at h
      rcases h with h | h
      · exact absurd h hp
      · simp [hp, ih h]

theorem find?_map_replace_other (d : List (String × MetaVal)) (k k2 : String)
    (v : MetaVal) (hne : ¬ k2 = k) :
    List.find? (fun p => p.1 = k2)
        (d.map (fun p => if p.1 = k then (k, v) else p))
      = List.find? (fun p => p.1 = k2) d := by
  have hne2 : ¬ k = k2 := fun hc => hne hc.symm
  induction d with
  | nil => rfl
  | cons p rest ih =>
    by_cases hp : p.1 = k
    · have hd1 : decide ((k, v).1 = k2) = false := decide_eq_false hne2
      have hd2 : decide (p.1 = k2) = false :=
        decide_eq_false (by rw [hp]; exact hne2)
      simp only [List.map_cons, if_pos hp, List.find?_cons, hd1, hd2, ih]
    · by_cases hq : p.1 = k2
      · have hd : decide (p.1 = k2) = true := decide_eq_true hq
        simp only [List.map_cons, if_neg hp, List.find?_cons, hd]
      · have hd : decide (p.1 = k2) = false := decide_eq_false hq
        simp only [List.map_cons, if_neg hp, List.find?_cons, hd, ih]

theorem find?_key_eq_none (d : List (String × MetaVal)) (k : String)
    (h : ¬ d.any (fun p => p.1 = k) = true) :
    List.find? (fun p => p.1 = k) d = none := by
  rw [List.find?_eq_none]
  intro p hp hc
  exact h (List.any_eq_true.mpr ⟨p, hp, hc⟩)

theorem metaGet_metaInsert_self (d : List (String × MetaVal)) (k : String)
    (v : MetaVal) : metaGet (metaInsert d k v) k = some v := by
  rw [metaInsert]
  by_cases h : d.any (fun p => p.1 = k) = true
  · rw [if_pos h, metaGet, find?_map_replace_self d k v h]
    rfl
  · rw [if_neg h, metaGet, List.find?_append, find?_key_eq_none d k h]
    simp

theorem metaGet_metaInsert_other (d : List (String × MetaVal)) (k k2 : String)
    (v : MetaVal) (hne : ¬ k2 = k) :
    metaGet (metaInsert d k v) k2 = metaGet d k2 := by
  rw [metaInsert]
  by_cases h : d.any (fun p => p.1 = k) = true
  · rw [if_pos h, metaGet, metaGet, find?_map_replace_other d k k2 v hne]
  · rw [if_neg h, metaGet, metaGet, List.find?_append]
    have hone : List.find? (fun p => p.1 = k2) [(k, v)] = none := by
      have : ¬ k = k2 := fun hc => hne hc.symm
      simp [this]
    rw [hone]
    cases List.find? (fun p => p.1 = k2) d <;> rfl

theorem metaKey_metaInsert (d : List (String × MetaVal)) (k k2 : String)
    (v : MetaVal) (h : d.any (fun p => p.1 = k2) = true) :
    (metaInsert d k v).any (fun p => p.1 = k2) = true := by
  rw [metaInsert]
  by_cases hc : d.any (fun p => p.1 = k) = true
  · rw [if_pos hc, List.any_map]
    rw [List.any_eq_true] at h ⊢
    obtain ⟨p, hp, hk⟩ := h
    refine ⟨p, hp, ?_⟩
    by_cases hpk : p.1 = k
    · have hkk : k = k2 := by rw [← hpk]; exact of_decide_eq_true hk
      simp [Function.comp, hpk, hkk]
    · simpa [Function.comp, hpk] using hk
  · rw [if_neg hc, List.any_append, h, Bool.true_or]

/-- C10, confirmed.  For every splitter, document list, document and chunk
ordinal: the chunk at ordinal `j` carries `chunk_index = j`,
`total_chunks` = the number of chunks split from that document,
`chunk_size` = the character length of that chunk's content (which is the
`j`-th split piece), every metadata key of the original document is still
present, and the overall output is the per-document chunk lists concatenated
in input order with ordinals increasing inside each document. -/
theorem C10_chunk_metadata (splitText : String → List String)
    (docs : List PyDocument) (d : PyDocument) (j : ℕ)
    (hj : j < (splitText d.page_content).length) :
    chunk_documents splitText docs = docs.flatMap (chunkOneDocument splitText)
    ∧ (chunkOneDocument splitText d).length = (splitText d.page_content).length
    ∧ ∃ cd : PyDocument,
        (chunkOneDocument splitText d)[j]? = some cd
        ∧ cd.page_content = (splitText d.page_content).get ⟨j, hj⟩
        ∧ metaGet cd.metadata "chunk_index" = some (MetaVal.nat j)
        ∧ metaGet cd.metadata "total_chunks"
            = some (MetaVal.nat (splitText d.page_content).length)
        ∧ metaGet cd.metadata "chunk_size"
            = some (MetaVal.nat cd.page_content.length)
        ∧ ∀ k : String, d.metadata.any (fun p => p.1 = k) = true →
            cd.metadata.any (fun p => p.1 = k) = true := by
  refine ⟨rfl, by simp [chunkOneDocument], ?_⟩
  set cs := splitText d.page_content with hcs
  refine ⟨{ page_content := cs.get ⟨j, hj⟩,
            metadata := metaUpdate d.metadata
              [("chunk_index", MetaVal.nat j),
               ("total_chunks", MetaVal.nat cs.length),
               ("chunk_size", MetaVal.nat (cs.get ⟨j, hj⟩).length)] }, ?_, rfl,
          ?_, ?_, ?_, ?_⟩
  · rw [chunkOneDocument, List.getElem?_map, List.enum_eq_enumFrom,
      List.getElem?_enumFrom, ← hcs, List.getElem?_eq_getElem hj]
    simp
  · rw [metaUpdate]
    simp only [List.foldl_cons, List.foldl_nil]
    rw [metaGet_metaInsert_other _ _ _ _ (by decide),
      metaGet_metaInsert_other _ _ _ _ (by decide), metaGet_metaInsert_self]
  · rw [metaUpdate]
    simp only [List.foldl_cons, List.foldl_nil]
    rw [metaGet_metaInsert_other _ _ _ _ (by decide), metaGet_metaInsert_self]
  · rw [metaUpdate]
    simp only [List.foldl_cons, List.foldl_nil]
    rw [metaGet_metaInsert_self]
  · intro k hk
    rw [metaUpdate]
    simp only [List.foldl_cons, List.foldl_nil]
    exact metaKey_metaInsert _ _ _ _
      (metaKey_metaInsert _ _ _ _ (metaKey_metaInsert _ _ _ _ hk))

/-- Witness for C10_chunk_metadata: a two-piece splitter on a one-document
list with a `source` metadata key. -/
theorem C10_chunk_metadata_witness :
    chunk_documents (fun s => [s, s]) [⟨"ab", [("source", MetaVal.str "f")]⟩]
      = [⟨"ab", [("source", MetaVal.str "f")]⟩].flatMap
          (chunkOneDocument (fun s => [s, s]))
    ∧ ∃ cd : PyDocument,
        (chunkOneDocument (fun s => [s, s])
            ⟨"ab", [("source", MetaVal.str "f")]⟩)[1]? = some cd
        ∧ cd.page_content
            = ([("ab" : String), "ab"]).get ⟨1, by decide⟩
        ∧ metaGet cd.metadata "chunk_index" = some (MetaVal.nat 1)
        ∧ metaGet cd.metadata "total_chunks" = some (MetaVal.nat 2)
        ∧ metaGet cd.metadata "chunk_size"
            = some (MetaVal.nat cd.page_content.length)
        ∧ ∀ k : String,
            ([("source", MetaVal.str "f")] : List (String × MetaVal)).any
              (fun p => p.1 = k) = true →
            cd.metadata.any (fun p => p.1 = k) = true := by
  obtain ⟨h1, h2, h3⟩ :=
    C10_chunk_metadata (fun s => [s, s]) [⟨"ab", [("source", MetaVal.str "f")]⟩]
      ⟨"ab", [("source", MetaVal.str "f")]⟩ 1 (by decide)
  exact ⟨h1, h3⟩

end ContractAnalyzer
